import Mathlib

/-!
Verification of the otp-manager core against its natural-language
specification.  The TypeScript sources are shallowly embedded as Lean
definitions: pure functions become Lean functions, the stateful secure
repository becomes explicit state passing over a `RepoState`, the Web
Crypto AEAD (an external platform collaborator) is modelled as an ideal
authenticated-encryption functionality, and the browser RNG is modelled
as an explicit entropy stream `sample : Nat → List Nat` together with a
draw position threaded through the code that consumes it.
-/

namespace OtpManager

/-! ## OTPService (src/services/OTPService.ts) -/

/-- Configuration handed by `generateTOTP` to the external otplib
generator (`totp.options = {digits, step, algorithm}`).  The backend
itself is external to the repository, so it is a parameter below. -/
structure TotpConfig where
  digits : Int
  step : Int
  algorithm : String
deriving DecidableEq

/-- Options of `OTPService.generateTOTP`.  The source's decoration
fields are named `pre`/`post` here; they are concatenated around the
generated code. -/
structure OTPOptions where
  digits : Int := 6
  step : Int := 30
  algorithm : String := "sha1"
  pre : String := ""
  post : String := ""
deriving DecidableEq

/-- Embedding of `OTPService.generateTOTP` (lines 37-53).  The source
sets `totp.options` to the given digits/step/algorithm, calls the otplib
generator, and returns the decorated token.  It contains no parameter
validation and no failure path of its own; the otplib backend is
abstracted as `gen`. -/
def generateTOTP (gen : TotpConfig → String → String) (secret : String)
    (options : OTPOptions) : String :=
  options.pre ++ gen ⟨options.digits, options.step, options.algorithm⟩ secret ++ options.post

/-- Embedding of `OTPService.getRemainingTime` (lines 84-86):
`step - (Math.floor(Date.now() / 1000) % step)`.  The wall clock
`Date.now()` is made an explicit parameter `nowMs` (milliseconds);
natural division is the floor of the source. -/
def getRemainingTime (step : Nat) (nowMs : Nat) : Nat :=
  step - (nowMs / 1000) % step

/-! ## EncryptionService (src/services/EncryptionService.ts)

The Web Crypto primitives (`PBKDF2` key derivation and `AES-GCM`) are
platform collaborators, not code of this repository.  They are modelled
as an ideal password-based AEAD: a derived key is the formal triple of
password, salt and iteration count, sealing is injective packaging, and
opening succeeds exactly for the sealing key and IV.  The base64
transport encoding (`btoa`/`atob`, a bijection) is elided. -/

/-- Result of the (ideal) PBKDF2 derivation: formally the inputs. -/
structure DerivedKey where
  password : String
  salt : List Nat
  iterations : Nat
deriving DecidableEq

/-- Opaque AEAD ciphertext of the ideal functionality. -/
structure AEADCipher where
  key : DerivedKey
  iv : List Nat
  data : String
deriving DecidableEq

/-- Ideal `crypto.subtle.encrypt` for AES-GCM. -/
def aeadSeal (key : DerivedKey) (iv : List Nat) (data : String) : AEADCipher :=
  ⟨key, iv, data⟩

/-- Ideal `crypto.subtle.decrypt` for AES-GCM: opening succeeds exactly
under the sealing key and IV, otherwise the tag check fails. -/
def aeadOpen (key : DerivedKey) (iv : List Nat) (c : AEADCipher) : Option String :=
  if c.key = key ∧ c.iv = iv then some c.data else none

/-- Embedding of `EncryptionService.deriveKey` over the ideal model. -/
def deriveKey (password : String) (salt : List Nat) (iterations : Nat) : DerivedKey :=
  ⟨password, salt, iterations⟩

/-- `EncryptionService.DEFAULT_ITERATIONS`. -/
def DEFAULT_ITERATIONS : Nat := 100000

/-- Options of `EncryptionService.encrypt` (salt/iv/iterations, each
generated or defaulted when absent). -/
structure EncryptionOptions where
  salt : Option (List Nat) := none
  iv : Option (List Nat) := none
  iterations : Option Nat := none

/-- Result of `EncryptionService.encrypt` (base64 transport elided). -/
structure EncryptionResult where
  encryptedData : AEADCipher
  salt : List Nat
  iv : List Nat
deriving DecidableEq

/-- Embedding of `EncryptionService.encrypt` (lines 56-98).  The browser
RNG `generateRandomBytes` is the stream `sample` at the current draw
position `pos`; a draw advances the position.  Salt and IV are drawn
only when not supplied in the options, exactly as in the source.
Returns the encryption result together with the new RNG position. -/
def encrypt (sample : Nat → List Nat) (pos : Nat) (data password : String)
    (options : EncryptionOptions) : EncryptionResult × Nat :=
  let saltDraw : List Nat × Nat :=
    match options.salt with
    | some s => (s, pos)
    | none => (sample pos, pos + 1)
  let ivDraw : List Nat × Nat :=
    match options.iv with
    | some v => (v, saltDraw.2)
    | none => (sample saltDraw.2, saltDraw.2 + 1)
  let key := deriveKey password saltDraw.1 (options.iterations.getD DEFAULT_ITERATIONS)
  (⟨aeadSeal key ivDraw.1 data, saltDraw.1, ivDraw.1⟩, ivDraw.2)

/-- Embedding of `EncryptionService.decrypt` (lines 110-142): derive the
key from the supplied password, salt and iteration count, open the
ciphertext, and surface any failure as the single catch-all error
message of the source. -/
def decrypt (encryptedData : AEADCipher) (password : String) (salt iv : List Nat)
    (iterations : Nat) : Except String String :=
  match aeadOpen (deriveKey password salt iterations) iv encryptedData with
  | some data => Except.ok data
  | none => Except.error "Failed to decrypt data. The password may be incorrect."

/-! ## SecureStorageRepository (src/repositories/SecureStorageRepository.ts)
and its base LocalStorageRepository (src/repositories/StorageRepository.ts)

An `ISecureStorageItem` carries an id, the sensitive record and the
remaining public fields; the JSON serializations of the latter two
(`JSON.stringify`, a bijection on the values involved) are modelled as
the strings themselves. -/

/-- An item of the secure repository (`ISecureStorageItem`). -/
structure SecureItem where
  id : String
  sensitiveData : String
  publicData : String
deriving DecidableEq

/-- The persisted shape when encryption applies (`IEncryptedStorageItem`). -/
structure EncryptedStorageItem where
  id : String
  encryptedData : AEADCipher
  salt : List Nat
  iv : List Nat
  publicData : String
deriving DecidableEq

/-- JS `Map.get` over the association-list model of the in-memory map. -/
def mapGet? (m : List (String × EncryptedStorageItem)) (k : String) :
    Option EncryptedStorageItem :=
  (m.find? (fun p => p.1 = k)).map (fun p => p.2)

/-- JS `Map.set`: replace the existing binding in place, else append. -/
def mapSet (m : List (String × EncryptedStorageItem)) (k : String)
    (v : EncryptedStorageItem) : List (String × EncryptedStorageItem) :=
  if m.any (fun p => p.1 = k) then m.map (fun p => if p.1 = k then (k, v) else p)
  else m ++ [(k, v)]

/-- Replace the first item of matching id (`items[index] = item` after
`findIndex`). -/
def replaceFirstById : List SecureItem → SecureItem → List SecureItem
  | [], _ => []
  | i :: rest, item =>
    if i.id = item.id then item :: rest else i :: replaceFirstById rest item

/-- Embedding of `LocalStorageRepository.save` on the stored list
(lines 142-161): update the existing item of the same id, else append. -/
def superSave (items : List SecureItem) (item : SecureItem) : List SecureItem :=
  if items.any (fun i => i.id = item.id) then replaceFirstById items item
  else items ++ [item]

/-- State of a `SecureStorageRepository` instance: the persisted
localStorage contents under its storage key, the in-memory
`encryptedItems` map, the active password, and the RNG draw position. -/
structure RepoState where
  storage : List SecureItem
  encryptedItems : List (String × EncryptedStorageItem)
  password : String
  rngPos : Nat
deriving DecidableEq

/-- Embedding of `SecureStorageRepository.encryptItem` (lines 162-183):
split the item, encrypt the sensitive part with the repository password
and no explicit options (so salt and IV are drawn fresh from the RNG),
and package the encrypted record.  Returns the new RNG position. -/
def encryptItem (sample : Nat → List Nat) (pos : Nat) (password : String)
    (item : SecureItem) : EncryptedStorageItem × Nat :=
  let r := encrypt sample pos item.sensitiveData password {}
  (⟨item.id, r.1.encryptedData, r.1.salt, r.1.iv, item.publicData⟩, r.2)

/-- Embedding of `SecureStorageRepository.decryptItem` (lines 191-212):
decrypt the sensitive part with the repository password (default
iteration count) and reassemble the item. -/
def decryptItem (password : String) (enc : EncryptedStorageItem) :
    Except String SecureItem :=
  match decrypt enc.encryptedData password enc.salt enc.iv DEFAULT_ITERATIONS with
  | Except.ok s => Except.ok ⟨enc.id, s, enc.publicData⟩
  | Except.error e => Except.error e

/-- Embedding of `SecureStorageRepository.save` (lines 124-134): encrypt
the item into the in-memory map, then `super.save(item)` - the source
persists the plaintext item itself into localStorage. -/
def save (sample : Nat → List Nat) (st : RepoState) (item : SecureItem) : RepoState :=
  let e := encryptItem sample st.rngPos st.password item
  { storage := superSave st.storage item
    encryptedItems := mapSet st.encryptedItems item.id e.1
    password := st.password
    rngPos := e.2 }

/-- Embedding of `SecureStorageRepository.getAll` (lines 70-95): walk
the persisted items; an item with an entry in the in-memory map is
decrypted from that entry and skipped if decryption fails, an item
without an entry is returned as stored. -/
def getAll (st : RepoState) : List SecureItem :=
  st.storage.filterMap (fun item =>
    match mapGet? st.encryptedItems item.id with
    | some enc => (decryptItem st.password enc).toOption
    | none => some item)

/-- Embedding of `SecureStorageRepository.getById` (lines 103-116):
look the id up in the persisted items; return null when it is absent
there or absent from the in-memory map; otherwise decrypt the map's
entry (a decryption failure is caught and becomes null). -/
def getById (st : RepoState) (id : String) : Option SecureItem :=
  match st.storage.find? (fun i => i.id = id) with
  | none => none
  | some item =>
    match mapGet? st.encryptedItems item.id with
    | none => none
    | some enc => (decryptItem st.password enc).toOption

/-! ## UriCodec: parseOtpAuthUri (src/lib/utils.ts)

The label splitting (lines 73-95) and query-parameter extraction
(lines 100-157) are embedded over `List Char`.  The JS string builtins
they call are modelled as follows: `trim` removes the common ASCII
whitespace, `toLowerCase`/`toUpperCase` act on the ASCII letters, and
`decodeURIComponent` resolves single-byte (ASCII) percent escapes -
multi-byte UTF-8 escapes are outside the modelled fragment and are
treated, like a malformed escape (URIError), as a decoding failure. -/

/-- ASCII whitespace removed by the JS `trim` of the source. -/
def isJsSpace (c : Char) : Bool :=
  c = ' ' ∨ c = '\t' ∨ c = '\n' ∨ c = '\r' ∨ c = '\x0b' ∨ c = '\x0c'

/-- JS `String.prototype.trim`. -/
def jsTrim (s : List Char) : List Char :=
  ((s.dropWhile isJsSpace).reverse.dropWhile isJsSpace).reverse

/-- Value of a hexadecimal digit. -/
def hexVal? (c : Char) : Option Nat :=
  if '0' ≤ c ∧ c ≤ '9' then some (c.toNat - 48)
  else if 'A' ≤ c ∧ c ≤ 'F' then some (c.toNat - 55)
  else if 'a' ≤ c ∧ c ≤ 'f' then some (c.toNat - 87)
  else none

/-- Model of `decodeURIComponent` on the ASCII fragment: a `%` escape
of two hex digits below `0x80` becomes that character; a malformed
escape, or an escape outside the fragment, fails (`URIError`). -/
def percentDecode : List Char → Option (List Char)
  | [] => some []
  | '%' :: h1 :: h2 :: rest =>
    match hexVal? h1, hexVal? h2 with
    | some a, some b =>
      if 16 * a + b < 128 then
        (percentDecode rest).map (fun t => Char.ofNat (16 * a + b) :: t)
      else none
    | _, _ => none
  | '%' :: _ => none
  | c :: rest => (percentDecode rest).map (fun t => c :: t)

/-- JS `String.prototype.indexOf(':')` (line 77), `none` for `-1`. -/
def indexOfColon : List Char → Option Nat
  | [] => none
  | c :: rest => if c = ':' then some 0 else (indexOfColon rest).map (fun i => i + 1)

/-- Parsed label: issuer (possibly unset) and account. -/
structure LabelResult where
  issuer : Option (List Char)
  account : List Char
deriving DecidableEq

/-- The literal `'%3A'` of the source (line 82). -/
def ENCODED_COLON : List Char := ['%', '3', 'A']

/-- The re-decoding step of `parseOtpAuthUri` (lines 81-89), applied to
the trimmed issuer and account once the label has been split: an
account starting with the literal `%3A` is percent-decoded again, and
afterwards, when the issuer ends in `%3` and the account starts with
`A`, both are percent-decoded again.  A decoding failure aborts the
whole parse (caught by the outer try). -/
def redecodeSplit (issuer1 account1 : List Char) :
    Option (List Char × List Char) :=
  let account2? : Option (List Char) :=
    if ENCODED_COLON.isPrefixOf account1 then percentDecode account1
    else some account1
  match account2? with
  | none => none
  | some account2 =>
    if (ENCODED_COLON.take 2).isSuffixOf issuer1 ∧
        (ENCODED_COLON.drop 2).isPrefixOf account2 then
      match percentDecode issuer1, percentDecode account2 with
      | some i2, some a2 => some (i2, a2)
      | _, _ => none
    else some (issuer1, account2)

/-- Embedding of the label parsing of `parseOtpAuthUri` (lines 73-95)
on the percent-decoded label: split at the first colon when it is
neither at position 0 nor the last character, apply the re-decoding
step, and fail when the resulting account is empty. -/
def parseLabel (decoded : List Char) : Option LabelResult :=
  let split? : Option (Option (List Char) × List Char) :=
    match indexOfColon decoded with
    | some i =>
      if 0 < i ∧ i + 1 < decoded.length then
        match redecodeSplit (jsTrim (decoded.take i)) (jsTrim (decoded.drop (i + 1))) with
        | some p => some (some p.1, p.2)
        | none => none
      else some (none, decoded)
    | none => some (none, decoded)
  match split? with
  | none => none
  | some p => if p.2 = [] then none else some ⟨p.1, p.2⟩

/-- ASCII `toLowerCase` (the source lowercases query keys). -/
def toLowerAscii (c : Char) : Char :=
  if 'A' ≤ c ∧ c ≤ 'Z' then Char.ofNat (c.toNat + 32) else c

/-- JS `String.prototype.toLowerCase` on the ASCII letters. -/
def lowerStr (s : List Char) : List Char := s.map toLowerAscii

/-- ASCII `toUpperCase` (the source uppercases the algorithm value). -/
def toUpperAscii (c : Char) : Char :=
  if 'a' ≤ c ∧ c ≤ 'z' then Char.ofNat (c.toNat - 32) else c

/-- JS `String.prototype.toUpperCase` on the ASCII letters. -/
def upperStr (s : List Char) : List Char := s.map toUpperAscii

/-- JS `parseInt(x, 10)`: skip leading whitespace, take an optional
sign and then the longest run of decimal digits; `none` models `NaN`. -/
def jsParseInt (s : List Char) : Option Int :=
  let t := s.dropWhile isJsSpace
  let signed : Int × List Char :=
    match t with
    | '-' :: r => (-1, r)
    | '+' :: r => (1, r)
    | _ => (1, t)
  let ds := signed.2.takeWhile (fun c => '0' ≤ c ∧ c ≤ '9')
  if ds = [] then none
  else some (signed.1 * ds.foldl (fun acc c => 10 * acc + ((c.toNat : Int) - 48)) 0)

/-- The parameter object built by the extraction loop (lines 100-157):
the recognized parameters plus the index-signature extras. -/
structure OtpAuthParams where
  secret : Option (List Char) := none
  issuer : Option (List Char) := none
  algorithm : Option (List Char) := none
  digits : Option Int := none
  period : Option Int := none
  counter : Option Int := none
  extras : List (List Char × List Char) := []
deriving DecidableEq

/-- JS object assignment `params[lowerKey] = decodedValue` for the
extras: overwrite an existing key in place, else append. -/
def extrasSet (m : List (List Char × List Char)) (k v : List Char) :
    List (List Char × List Char) :=
  if m.any (fun p => p.1 = k) then m.map (fun p => if p.1 = k then (k, v) else p)
  else m ++ [(k, v)]

/-- Embedding of one iteration of the query-parameter loop of
`parseOtpAuthUri` (lines 102-157): lowercase the key, decode the value
once more (a `URIError` aborts the parse), and dispatch on the
lowercased key; an unrecognized key is stored, lowercased, in the
extras. -/
def processParam (params : OtpAuthParams) (key value : List Char) :
    Option OtpAuthParams :=
  let lowerKey := lowerStr key
  match percentDecode value with
  | none => none
  | some decodedValue =>
    if lowerKey = "secret".toList then
      some { params with secret := some decodedValue }
    else if lowerKey = "issuer".toList then
      some { params with issuer := some decodedValue }
    else if lowerKey = "algorithm".toList then
      let upperAlg := upperStr decodedValue
      if upperAlg = "SHA1".toList ∨ upperAlg = "SHA256".toList ∨
          upperAlg = "SHA512".toList then
        some { params with algorithm := some upperAlg }
      else some { params with algorithm := some decodedValue }
    else if lowerKey = "digits".toList then
      match jsParseInt decodedValue with
      | some d =>
        if d = 6 ∨ d = 8 then some { params with digits := some d }
        else if 0 < d then some { params with digits := some d }
        else some params
      | none => some params
    else if lowerKey = "period".toList then
      match jsParseInt decodedValue with
      | some p => if 0 < p then some { params with period := some p }
                  else some params
      | none => some params
    else if lowerKey = "counter".toList then
      match jsParseInt decodedValue with
      | some n => if 0 ≤ n then some { params with counter := some n }
                  else some params
      | none => some params
    else some { params with extras := extrasSet params.extras lowerKey decodedValue }

/-- The extraction loop over the `url.searchParams` entries. -/
def extractParams (entries : List (List Char × List Char)) : Option OtpAuthParams :=
  entries.foldlM (fun acc e => processParam acc e.1 e.2) {}

/-- Modelled from the spec: the repository implements no HOTP
validation (OTPService covers TOTP only), so `validate` for HOTP is
missing and is modelled from §4.2: "for HOTP, accepts if the token
matches counter values in `[counter, counter+window]` and, on match,
the credential's counter is advanced to matched_counter+1
(resynchronization)".  The RFC 4226 code generator is abstracted as
`gen`; the lowest matching counter wins.  Returns the advanced counter
on acceptance and `none` on rejection. -/
def hotpValidate (gen : String → Nat → String) (secret : String)
    (counter window : Nat) (token : String) : Option Nat :=
  match (List.range (window + 1)).find? (fun d => gen secret (counter + d) == token) with
  | some d => some (counter + d + 1)
  | none => none

end OtpManager

namespace OtpManager

/-! ## Theorems about OTPService -/

/-- C5 counterexample: with `digits = 0` (and `step = 0`), the embedded
`generateTOTP` still produces the backend's code instead of rejecting
the request: no `InvalidParameter` rejection exists in the source. -/
theorem generateTOTP_no_reject_at_zero_digits :
    generateTOTP (fun _ _ => "000000") "JBSWY3DPEHPK3PXP"
      { digits := 0, step := 0, algorithm := "sha1", pre := "", post := "" } = "000000" := by
  rfl

/-- C5 (amended): `generateTOTP` performs no validation of `digits` or
`step`: for every backend, secret and options - including non-positive
digits or period - it passes the options through unmodified and returns
the decorated backend code. -/
theorem generateTOTP_passthrough (gen : TotpConfig → String → String)
    (secret : String) (options : OTPOptions) :
    generateTOTP gen secret options =
      options.pre ++ gen ⟨options.digits, options.step, options.algorithm⟩ secret
        ++ options.post := by
  rfl

/-- C6: for every positive period and every clock value, the remaining
time equals `period - (floor(now) mod period)` (with `now` in seconds)
and lies in `[1, period]`; it is never `0`. -/
theorem getRemainingTime_bounds (period nowMs : Nat) (hp : 0 < period) :
    getRemainingTime period nowMs = period - (nowMs / 1000) % period ∧
    1 ≤ getRemainingTime period nowMs ∧ getRemainingTime period nowMs ≤ period := by
  have hlt : (nowMs / 1000) % period < period := Nat.mod_lt _ hp
  refine ⟨rfl, ?_, ?_⟩
  · simp only [getRemainingTime]
    omega
  · simp only [getRemainingTime]
    omega

/-- C6 witness: at `period = 30` one second before the wrap boundary the
countdown shows `1`, inside the claimed range. -/
theorem getRemainingTime_bounds_witness :
    getRemainingTime 30 59000 = 30 - (59000 / 1000) % 30 ∧
    1 ≤ getRemainingTime 30 59000 ∧ getRemainingTime 30 59000 ≤ 30 :=
  getRemainingTime_bounds 30 59000 (by decide)

/-! ## Theorems about EncryptionService -/

/-- C2: decrypting the result of `encrypt` with the same password (and
the default iteration count) returns the original plaintext; decrypting
with any different password fails with the decryption error and returns
no plaintext. -/
theorem encrypt_decrypt_roundtrip (sample : Nat → List Nat) (pos : Nat)
    (data password wrong : String) (hne : wrong ≠ password) :
    decrypt (encrypt sample pos data password {}).1.encryptedData password
        (encrypt sample pos data password {}).1.salt
        (encrypt sample pos data password {}).1.iv DEFAULT_ITERATIONS = Except.ok data ∧
    decrypt (encrypt sample pos data password {}).1.encryptedData wrong
        (encrypt sample pos data password {}).1.salt
        (encrypt sample pos data password {}).1.iv DEFAULT_ITERATIONS =
      Except.error "Failed to decrypt data. The password may be incorrect." := by
  constructor
  · simp [encrypt, decrypt, aeadOpen, aeadSeal, deriveKey]
  · have hne2 : password ≠ wrong := fun h => hne h.symm
    simp [encrypt, decrypt, aeadOpen, aeadSeal, deriveKey, hne2]

/-! ## Theorems about the secure repository -/

lemma except_toOption_eq_some {ε α : Type} (e : Except ε α) (x : α) :
    e.toOption = some x ↔ e = Except.ok x := by
  cases e <;> simp [Except.toOption]

/-- C1: saving an item through the secure repository with an active
vault password persists the item's sensitive data in cleartext: the
source's `save` hands the plaintext item to `super.save`, so the
persisted storage holds the OTP secret outside the ciphertext.  The
claimed invariant fails at this concrete input. -/
theorem save_persists_plaintext_secret :
    (save (fun n => [n]) ⟨[], [], "hunter2", 0⟩
        ⟨"id1", "JBSWY3DPEHPK3PXP", "GitHub"⟩).storage =
      [⟨"id1", "JBSWY3DPEHPK3PXP", "GitHub"⟩] ∧
    ((save (fun n => [n]) ⟨[], [], "hunter2", 0⟩
        ⟨"id1", "JBSWY3DPEHPK3PXP", "GitHub"⟩).storage.map
          (fun i => i.sensitiveData)) = ["JBSWY3DPEHPK3PXP"] := by
  constructor <;> rfl

/-- C4: `getAll` never fails and returns exactly the stored records
whose decryption succeeds: an item is in the result iff it comes from a
stored record that either has no encrypted entry (returned as stored) or
whose encrypted entry decrypts successfully to the item; a record whose
decryption fails contributes nothing while the others are all
returned. -/
theorem getAll_mem_iff (st : RepoState) (x : SecureItem) :
    x ∈ getAll st ↔ ∃ item, item ∈ st.storage ∧
      ((mapGet? st.encryptedItems item.id = none ∧ x = item) ∨
       ∃ enc, mapGet? st.encryptedItems item.id = some enc ∧
         decryptItem st.password enc = Except.ok x) := by
  unfold getAll
  rw [List.mem_filterMap]
  refine exists_congr fun item => and_congr_right fun _ => ?_
  cases h : mapGet? st.encryptedItems item.id with
  | none => simp [eq_comm]
  | some enc => simp [except_toOption_eq_some]

/-- C10: `getById` returns null whenever the id has no entry in the
instance's in-memory `encryptedItems` map, even when the persisted
storage does contain a record with that id; in particular a fresh
instance (empty map) never returns a record persisted earlier. -/
theorem getById_none_without_map_entry (st : RepoState) (id : String)
    (item : SecureItem) (_hmem : item ∈ st.storage) (_hid : item.id = id)
    (habs : mapGet? st.encryptedItems id = none) :
    getById st id = none := by
  unfold getById
  cases hfind : st.storage.find? (fun i => i.id = id) with
  | none => rfl
  | some it =>
    have hit : it.id = id := by simpa using List.find?_some hfind
    have hnone : mapGet? st.encryptedItems it.id = none := by rw [hit]; exact habs
    show (match mapGet? st.encryptedItems it.id with
          | none => none
          | some enc => (decryptItem st.password enc).toOption) = none
    rw [hnone]

/-- C10 witness: storage holds a record with id `a`, the in-memory map
is empty, and `getById` returns null. -/
theorem getById_none_without_map_entry_witness :
    getById ⟨[⟨"a", "s", "p"⟩], [], "pw", 0⟩ "a" = none :=
  getById_none_without_map_entry ⟨[⟨"a", "s", "p"⟩], [], "pw", 0⟩ "a"
    ⟨"a", "s", "p"⟩ (List.mem_singleton.mpr rfl) rfl rfl

/-- C2 witness: a concrete roundtrip with password `pw` and wrong
password `guess`. -/
theorem encrypt_decrypt_roundtrip_witness :
    decrypt (encrypt (fun _ => []) 0 "hello" "pw" {}).1.encryptedData "pw"
        (encrypt (fun _ => []) 0 "hello" "pw" {}).1.salt
        (encrypt (fun _ => []) 0 "hello" "pw" {}).1.iv DEFAULT_ITERATIONS = Except.ok "hello" ∧
    decrypt (encrypt (fun _ => []) 0 "hello" "pw" {}).1.encryptedData "guess"
        (encrypt (fun _ => []) 0 "hello" "pw" {}).1.salt
        (encrypt (fun _ => []) 0 "hello" "pw" {}).1.iv DEFAULT_ITERATIONS =
      Except.error "Failed to decrypt data. The password may be incorrect." :=
  encrypt_decrypt_roundtrip (fun _ => []) 0 "hello" "pw" "guess" (by decide)

end OtpManager

namespace OtpManager

/-! ## Theorems about HOTP validation (modelled from the spec) -/

/-- C9: with `window = 1` and stored counter `c`, HOTP validation
accepts a token generated at counter `c + 1` and advances the stored
counter to `c + 2`, and it rejects a token generated at counter `c + 5`
(under the hypotheses that the codes at the relevant counters are
pairwise distinct, which holds for an HOTP generator except with
negligible probability). -/
theorem hotpValidate_window_one (gen : String → Nat → String) (secret : String)
    (c : Nat) (h1 : gen secret c ≠ gen secret (c + 1))
    (h5a : gen secret c ≠ gen secret (c + 5))
    (h5b : gen secret (c + 1) ≠ gen secret (c + 5)) :
    hotpValidate gen secret c 1 (gen secret (c + 1)) = some (c + 2) ∧
    hotpValidate gen secret c 1 (gen secret (c + 5)) = none := by
  have hr : List.range 2 = [0, 1] := rfl
  have e0 : (gen secret c == gen secret (c + 1)) = false :=
    beq_eq_false_iff_ne.mpr h1
  have e1 : (gen secret (c + 1) == gen secret (c + 1)) = true := beq_self_eq_true _
  have f0 : (gen secret c == gen secret (c + 5)) = false :=
    beq_eq_false_iff_ne.mpr h5a
  have f1 : (gen secret (c + 1) == gen secret (c + 5)) = false :=
    beq_eq_false_iff_ne.mpr h5b
  constructor
  · simp [hotpValidate, hr, List.find?, e0, e1]
  · simp [hotpValidate, hr, List.find?, f0, f1]

/-- C9 witness: a concrete generator (`n` repetitions of `x`), stored
counter `0`: the token for counter `1` is accepted and the counter
advances to `2`; the token for counter `5` is rejected. -/
theorem hotpValidate_window_one_witness :
    hotpValidate (fun _ n => String.mk (List.replicate n 'x')) "K" 0 1 "x" = some 2 ∧
    hotpValidate (fun _ n => String.mk (List.replicate n 'x')) "K" 0 1 "xxxxx" = none :=
  hotpValidate_window_one (fun _ n => String.mk (List.replicate n 'x')) "K" 0
    (by decide) (by decide) (by decide)

end OtpManager

namespace OtpManager

/-! ## Theorems about the URI label parsing and parameter extraction -/

lemma indexOfColon_append (l1 l2 : List Char) (h : ':' ∉ l1) :
    indexOfColon (l1 ++ ':' :: l2) = some l1.length := by
  induction l1 with
  | nil => simp [indexOfColon]
  | cons a r ih =>
    simp only [List.mem_cons, not_or] at h
    have ha : ¬ a = ':' := fun he => h.1 he.symm
    simp [indexOfColon, ha, ih h.2]

lemma indexOfColon_eq_none (l : List Char) (h : ':' ∉ l) : indexOfColon l = none := by
  induction l with
  | nil => rfl
  | cons a r ih =>
    simp only [List.mem_cons, not_or] at h
    have ha : ¬ a = ':' := fun he => h.1 he.symm
    simp [indexOfColon, ha, ih h.2]

lemma take_length_append (l1 l2 : List Char) : (l1 ++ l2).take l1.length = l1 := by
  induction l1 with
  | nil => rfl
  | cons a r ih => simp [ih]

lemma drop_length_succ_append (l1 : List Char) (c : Char) (l2 : List Char) :
    (l1 ++ c :: l2).drop (l1.length + 1) = l2 := by
  induction l1 with
  | nil => rfl
  | cons a r ih => simp [ih]

/-- C7 counterexample: on the decoded label `Ex:%3Auser` the first
colon sits at index 2, so the claim predicts the account to be the
trimmed right part `%3Auser`; the parser re-decodes it and returns
`:user` instead. -/
theorem parseLabel_not_plain_split :
    indexOfColon ("Ex:%3Auser".toList) = some 2 ∧
    jsTrim (("Ex:%3Auser".toList).drop 3) = "%3Auser".toList ∧
    parseLabel ("Ex:%3Auser".toList) =
      some ⟨some ("Ex".toList), ":user".toList⟩ ∧
    (":user".toList : List Char) ≠ "%3Auser".toList := by
  decide

/-- C7 (amended): the decoded label is split at its first colon into
the trimmed left part (issuer) and trimmed right part (account), after
which the re-decoding step applies (an account starting with a literal
`%3A`, or an issuer ending in `%3` with the account starting in `A`, is
percent-decoded again, failing the parse if decoding fails); when there
is no colon, or the colon is at position 0 or at the last character,
the whole label is the account and the issuer is unset (an empty label
fails the parse). -/
theorem parseLabel_first_colon_split :
    (∀ l1 l2 : List Char, ':' ∉ l1 → l1 ≠ [] → l2 ≠ [] →
      parseLabel (l1 ++ ':' :: l2) =
        match redecodeSplit (jsTrim l1) (jsTrim l2) with
        | some p => if p.2 = [] then none else some ⟨some p.1, p.2⟩
        | none => none) ∧
    (∀ l : List Char, ':' ∉ l → l ≠ [] → parseLabel l = some ⟨none, l⟩) ∧
    (∀ l2 : List Char, parseLabel (':' :: l2) = some ⟨none, ':' :: l2⟩) ∧
    (∀ l1 : List Char, ':' ∉ l1 →
      parseLabel (l1 ++ [':']) = some ⟨none, l1 ++ [':']⟩) := by
  refine ⟨?_, ?_, ?_, ?_⟩
  · intro l1 l2 h h1 h2
    have c2 : l1.length + 1 < (l1 ++ ':' :: l2).length := by
      simp only [List.length_append, List.length_cons]
      have := List.length_pos.mpr h2
      omega
    simp only [parseLabel, indexOfColon_append l1 l2 h]
    rw [if_pos (And.intro (List.length_pos.mpr h1) c2),
      take_length_append, drop_length_succ_append]
    cases hrd : redecodeSplit (jsTrim l1) (jsTrim l2) with
    | none => rfl
    | some p => rfl
  · intro l h hne
    simp only [parseLabel]
    rw [indexOfColon_eq_none l h]
    simp [hne]
  · intro l2
    simp [parseLabel, indexOfColon]
  · intro l1 h
    have hc : ¬ (0 < l1.length ∧ l1.length + 1 < (l1 ++ [':']).length) := by
      simp [List.length_append]
    simp only [parseLabel, indexOfColon_append l1 [] h]
    rw [if_neg hc]
    simp

/-- C7 witness: the split rule at the decoded labels `Ex:user` and
`user`. -/
theorem parseLabel_first_colon_split_witness :
    parseLabel ("Ex".toList ++ ':' :: "user".toList) =
      (match redecodeSplit (jsTrim ("Ex".toList)) (jsTrim ("user".toList)) with
       | some p => if p.2 = [] then none else some ⟨some p.1, p.2⟩
       | none => none) ∧
    parseLabel ("user".toList) = some ⟨none, "user".toList⟩ :=
  ⟨parseLabel_first_colon_split.1 ("Ex".toList) ("user".toList)
      (by decide) (by decide) (by decide),
   parseLabel_first_colon_split.2.1 ("user".toList) (by decide) (by decide)⟩

/-- C8 counterexample: the unrecognized query key `Color` is stored in
the extension map as `color`, not verbatim. -/
theorem extractParams_key_lowercased :
    extractParams [("Color".toList, "red".toList)] =
      some { extras := [("color".toList, "red".toList)] } ∧
    (("color".toList, "red".toList) : List Char × List Char) ≠
      ("Color".toList, "red".toList) := by
  decide

/-- C8 (amended): query keys are matched case-insensitively (two keys
with the same lowercasing are processed identically, for the recognized
keys and all others), and an unrecognized parameter is stored in the
extension map under its lowercased key with its value percent-decoded
once more, rather than verbatim. -/
theorem processParam_case_and_extras (params : OtpAuthParams)
    (key1 key2 value : List Char) (hk : lowerStr key1 = lowerStr key2) :
    processParam params key1 value = processParam params key2 value ∧
    (∀ dv, percentDecode value = some dv →
      lowerStr key1 ∉ ["secret".toList, "issuer".toList, "algorithm".toList,
        "digits".toList, "period".toList, "counter".toList] →
      processParam params key1 value =
        some { params with extras := extrasSet params.extras (lowerStr key1) dv }) := by
  constructor
  · simp only [processParam, hk]
  · intro dv hdv hni
    simp only [List.mem_cons, List.not_mem_nil, or_false, not_or] at hni
    obtain ⟨n1, n2, n3, n4, n5, n6⟩ := hni
    simp at n1 n2 n3 n4 n5 n6
    simp only [processParam, hdv]
    simp [n1, n2, n3, n4, n5, n6]

/-- C8 witness: the keys `Color` and `coLOR` are processed identically,
and `Color=red` lands in the extension map as `color=red`. -/
theorem processParam_case_and_extras_witness :
    processParam {} ("Color".toList) ("red".toList) =
      processParam {} ("coLOR".toList) ("red".toList) ∧
    processParam {} ("Color".toList) ("red".toList) =
      some { ({} : OtpAuthParams) with
        extras := extrasSet ({} : OtpAuthParams).extras
          (lowerStr ("Color".toList)) ("red".toList) } :=
  ⟨(processParam_case_and_extras {} ("Color".toList) ("coLOR".toList)
      ("red".toList) (by decide)).1,
   (processParam_case_and_extras {} ("Color".toList) ("coLOR".toList)
      ("red".toList) (by decide)).2 ("red".toList) (by decide) (by decide)⟩

end OtpManager
